import Mathlib

/-!
Shallow embedding of the Context & Response-Decision Engine of the
gentle-man-tg-bot repository:

* `app/services/vector_store.py` — the chat-scoped vector memory
  (`VectorStore.encode`, `add_messages`, `search`, `get_user_context`,
  `get_chat_context`, `load`, `clear`);
* `app/handlers/message_handler.py` — the response gate, the context
  assembler (lines 159-180 of `handle_message`), the reference decision
  (`_should_reference_message`), and `_store_message_context`;
* `app/services/ai_service.py` — `GeminiService.should_respond_to_bot`.

External collaborators (the OpenAI embedding endpoint, the FAISS
`index.search` call, the Gemini generation call) are modelled as explicit
parameters: an embedding backend is a function
`List String → Except Unit (List Vec)` (`Except.error` standing for a
raised exception), and the FAISS search output is an arbitrary list of
(row index, distance) pairs produced from the requested neighbour count.
Machine floats only flow through this code unexamined, so distances and
vector components are represented by opaque `Int` payloads.
-/

/-- Substring machinery (the Python `in` operator on strings):
`listPrefixEq n h` is true iff `n` is a prefix of `h`. -/
def listPrefixEq : List Char → List Char → Bool
  | [], _ => true
  | _ :: _, [] => false
  | a :: as, b :: bs => a == b && listPrefixEq as bs

/-- `containsSeq n h` is true iff `n` occurs as a contiguous run inside `h`
(true for the empty needle, matching Python `"" in s`). -/
def containsSeq (needle : List Char) (hay : List Char) : Bool :=
  match hay with
  | [] => listPrefixEq needle []
  | c :: rest => listPrefixEq needle (c :: rest) || containsSeq needle rest

/-- Python `needle in hay` on strings. -/
def containsSub (needle hay : String) : Bool :=
  containsSeq needle.toList hay.toList

/-- Python `str.lower()`: character-wise lowercasing (ASCII-faithful,
which covers every string these claims inspect). -/
def strLower (s : String) : String := String.mk (s.data.map Char.toLower)

/-- Python truthiness of `s.strip()`: the string has a non-whitespace
character. -/
def strNonWS (s : String) : Bool :=
  s.data.any (fun c => !c.isWhitespace)

/-- Python `xs[-limit:]` for a natural `limit` (note `xs[-0:] = xs[0:]`
is the whole list, not the empty list). -/
def pyLastSlice (xs : List α) (limit : Nat) : List α :=
  if limit = 0 then xs else xs.drop (xs.length - limit)

/-- An embedding vector (components opaque). -/
abbrev Vec := List Int

/-- The metadata dictionary built by `VectorStore.add_messages` (and, with
the same six keys, the message dictionaries passed into it by
`_store_message_context` / `_store_bot_response`).  `Option` mirrors
`dict.get` returning `None` for a missing key. -/
structure MsgMeta where
  chat_id : Option Int
  user_id : Option Int
  username : Option String
  text : Option String
  timestamp : Option Int
  message_id : Option Int
deriving DecidableEq, Repr

/-- The test `msg.get('text') and msg['text'].strip()` filtering a batch
entry in `add_messages` (and the identical test inside `encode`). -/
def validMsg (m : MsgMeta) : Bool :=
  match m.text with
  | none => false
  | some s => strNonWS s

/-- `msg['text']` of a batch entry (only read after `validMsg` passed, so
the default is never observed). -/
def textOf (m : MsgMeta) : String :=
  m.text.getD ""

/-- The embedding backend: `Except.ok` is a successful OpenAI embeddings
response (one vector per input), `Except.error` a raised exception. -/
abbrev Backend := List String → Except Unit (List Vec)

/-- `np.zeros(d)` as a vector. -/
def zeroVec (d : Nat) : Vec := List.replicate d 0

/-- `numpy` array `.size` of a list of row vectors (`np.zeros((n, d))` has
size `n * d`; an array built from `n` rows of length `d` has size `n * d`). -/
def npSize (a : List Vec) : Nat := (a.map List.length).sum

/-- `VectorStore.encode`: filters out empty/whitespace texts, calls the
backend on the remainder, and on a raised exception substitutes
`np.zeros((len(texts), self.dimension))` — note `len(texts)`, the
*unfiltered* argument length. -/
def VectorStore.encode (dim : Nat) (backend : Backend) (texts : List String) : List Vec :=
  let validTexts := texts.filter strNonWS
  if validTexts.isEmpty then []
  else
    match backend validTexts with
    | Except.ok embeddings => embeddings
    | Except.error _ => List.replicate texts.length (zeroVec dim)

/-- A FAISS `IndexFlatL2`: its fixed dimensionality `d` and its stored
vectors (`ntotal = vecs.length`). -/
structure FIndex where
  d : Nat
  vecs : List Vec
deriving DecidableEq, Repr

/-- The mutable state of a `VectorStore` object: `self.dimension` (fixed at
construction), `self.index`, `self.metadata`. -/
structure VectorStore where
  dimension : Nat
  index : FIndex
  metadata : List MsgMeta
deriving DecidableEq, Repr

/-- The state built by `VectorStore.__init__` before `self.load()` runs:
dimension 1536, a fresh `IndexFlatL2(1536)`, empty metadata. -/
def VectorStore.initial : VectorStore :=
  { dimension := 1536, index := { d := 1536, vecs := [] }, metadata := [] }

/-- `VectorStore.add_messages`: keep entries with non-empty text, embed
their texts in one batch, and if the embedding array is non-empty append
the vectors to the index and the six-key metadata dictionaries to the
metadata list, in batch order.  (The subsequent `save()` is disk I/O with
no effect on the in-memory state.) -/
def VectorStore.add_messages (backend : Backend) (st : VectorStore)
    (messages : List MsgMeta) : VectorStore :=
  let valid := messages.filter validMsg
  if valid.isEmpty then st
  else
    let texts := valid.map textOf
    let embeddings := VectorStore.encode st.dimension backend texts
    if npSize embeddings = 0 then st
    else
      { st with
        index := { d := st.index.d, vecs := st.index.vecs ++ embeddings }
        metadata := st.metadata ++ valid }

/-- Fallback for `self.metadata[idx]` (never observed: guarded by the
range check). -/
def defaultMeta : MsgMeta :=
  { chat_id := none, user_id := none, username := none, text := none
    timestamp := none, message_id := none }

/-- `VectorStore.search`.  `faiss` abstracts `self.index.search`: given the
requested neighbour count `search_k = min(k * 3, ntotal)` it yields the
`(idx, dist)` pairs of `zip(indices[0], distances[0])`, an arbitrary
external answer (FAISS may pad with `idx = -1`).  The body then
range-checks each index, filters strictly by `chat_id`, and returns the
first `k` survivors. -/
def VectorStore.search (backend : Backend) (faiss : Nat → List (Int × Int))
    (st : VectorStore) (query : String) (k : Nat) (chat_id : Option Int) :
    List (MsgMeta × Int) :=
  if strNonWS query = false then []
  else
    match chat_id with
    | none => []
    | some c =>
      if npSize (VectorStore.encode st.dimension backend [query]) = 0 ∨
          st.index.vecs.length = 0 then []
      else
        ((faiss (min (k * 3) st.index.vecs.length)).filterMap (fun p =>
          if 0 ≤ p.1 ∧ p.1.toNat < st.metadata.length then
            if (st.metadata.getD p.1.toNat defaultMeta).chat_id = some c then
              some (st.metadata.getD p.1.toNat defaultMeta, p.2)
            else none
          else none)).take k

/-- `VectorStore.get_user_context`: linear scan filtered by both user and
chat, then the Python slice `[-limit:]`. -/
def VectorStore.get_user_context (st : VectorStore) (user_id chat_id : Int)
    (limit : Nat) : List MsgMeta :=
  pyLastSlice
    (st.metadata.filter (fun m =>
      decide (m.user_id = some user_id) && decide (m.chat_id = some chat_id)))
    limit

/-- `VectorStore.get_chat_context`: linear scan filtered by chat only, then
the Python slice `[-limit:]`. -/
def VectorStore.get_chat_context (st : VectorStore) (chat_id : Int)
    (limit : Nat) : List MsgMeta :=
  pyLastSlice
    (st.metadata.filter (fun m => decide (m.chat_id = some chat_id)))
    limit

/-- What `load` finds on disk: `absent` — the two files are not both
present (the body is skipped, state kept); `corrupt` — reading either file
raises (reset to a fresh index of `self.dimension` and empty metadata);
`present` — both reads succeed and yield the persisted index (with its own
dimensionality) and metadata list. -/
inductive DiskState where
  | absent
  | corrupt
  | present (idx : FIndex) (meta : List MsgMeta)

/-- `VectorStore.load`. -/
def VectorStore.load (st : VectorStore) (disk : DiskState) : VectorStore :=
  match disk with
  | DiskState.absent => st
  | DiskState.corrupt =>
      { st with index := { d := st.dimension, vecs := [] }, metadata := [] }
  | DiskState.present idx meta =>
      { st with index := idx, metadata := meta }

/-- `VectorStore.clear`: fresh `IndexFlatL2(self.dimension)` and empty
metadata (then `save()`, disk-only). -/
def VectorStore.clear (st : VectorStore) : VectorStore :=
  { st with index := { d := st.dimension, vecs := [] }, metadata := [] }

/-- The parallel-array invariant of §3 of the spec: the index holds
exactly one vector per metadata entry. -/
def ParallelInv (st : VectorStore) : Prop :=
  st.index.vecs.length = st.metadata.length

/-- The interface contract of the embedding backend (spec §6): a
successful call returns one vector per input, each of the backend's fixed
output size. -/
def GoodBackend (dim : Nat) (backend : Backend) : Prop :=
  ∀ ts vs, backend ts = Except.ok vs →
    vs.length = ts.length ∧ ∀ v ∈ vs, v.length = dim

/-- Consistency of a persisted store (what `save` always writes): the
persisted index and metadata have equal lengths. -/
def DiskConsistent : DiskState → Prop
  | DiskState.present idx meta => idx.vecs.length = meta.length
  | _ => True

/-- `GeminiService.should_respond_to_bot`. -/
def should_respond_to_bot (bot_message_count : Nat) : Bool :=
  bot_message_count % 5 == 0

/-- `MessageHandler._is_bot_mentioned` (`self.bot_username` is stored
lowercased by `set_bot_username`). -/
def is_bot_mentioned (bot_username : Option String) (text : String) : Bool :=
  match bot_username with
  | none => false
  | some u => if text = "" then false else containsSub ("@" ++ u) (strLower text)

/-- Outcome of `MessageHandler.handle_message` for one inbound event. -/
inductive Outcome where
  /-- `update.message.text` falsy: handler returns at once. -/
  | ignored
  /-- peer-bot throttle suppressed the response; message stored for
  context. -/
  | throttled
  /-- not mentioned, not a reply to the bot, not a private chat: stored
  in vector memory, no reply. -/
  | storedOnly
  /-- the handler proceeds to context assembly and replies. -/
  | replied
deriving DecidableEq, Repr

/-- The response-gate portion of `MessageHandler.handle_message`: decides
the outcome and the author's updated `bot_message_count`.  Mirrors the
source: empty-text early return; mention and reply-to-bot booleans; the
peer-bot branch incrementing the counter and early-returning unless the
new count is a multiple of 5; then the mention/reply/private gate. -/
def handle_message (bot_username : Option String) (author_is_bot : Bool)
    (reply_to_bot : Bool) (chat_type : String) (text : Option String)
    (bot_count : Nat) : Outcome × Nat :=
  match text with
  | none => (Outcome.ignored, bot_count)
  | some t =>
    if t = "" then (Outcome.ignored, bot_count)
    else
      let mentioned := is_bot_mentioned bot_username t
      let throttle :=
        if author_is_bot && !mentioned && !reply_to_bot then
          (bot_count + 1, should_respond_to_bot (bot_count + 1))
        else (bot_count, true)
      if throttle.2 = false then (Outcome.throttled, throttle.1)
      else if !(mentioned || reply_to_bot || (chat_type == "private")) then
        (Outcome.storedOnly, throttle.1)
      else (Outcome.replied, throttle.1)

/-- `MessageHandler._store_message_context`: wraps the message in one
six-key dictionary and calls `add_messages`. -/
def store_message_context (backend : Backend) (st : VectorStore)
    (text : String) (chatId userId : Int) (username : String)
    (ts msgId : Int) : VectorStore :=
  VectorStore.add_messages backend st
    [{ chat_id := some chatId, user_id := some userId
       username := some username, text := some text
       timestamp := some ts, message_id := some msgId }]

/-- First merge loop of `handle_message` (lines 162-165): append each of
the (already sliced) recent chat messages unless already present. -/
def dedupAppend (acc : List MsgMeta) : List MsgMeta → List MsgMeta
  | [] => acc
  | m :: rest =>
      if m ∈ acc then dedupAppend acc rest
      else dedupAppend (acc ++ [m]) rest

/-- Second merge loop (lines 167-174): append up to 6 similarity hits not
already present, counting only actual additions. -/
def addSimilar (acc : List MsgMeta) (added : Nat) :
    List (MsgMeta × Int) → List MsgMeta
  | [] => acc
  | (m, _) :: rest =>
      if 6 ≤ added then acc
      else if m ∈ acc then addSimilar acc added rest
      else addSimilar (acc ++ [m]) (added + 1) rest

/-- `enhanced_context` after both merge loops, starting from
`chat_context[-6:]`. -/
def enhancedContext (chat_context : List MsgMeta)
    (similar_messages : List (MsgMeta × Int)) : List MsgMeta :=
  addSimilar (dedupAppend [] (pyLastSlice chat_context 6)) 0 similar_messages

/-- `context_messages = enhanced_context[:12]` (line 180), the merged
window handed to the generation call. -/
def contextMessages (chat_context : List MsgMeta)
    (similar_messages : List (MsgMeta × Int)) : List MsgMeta :=
  (enhancedContext chat_context similar_messages).take 12

/-- A row of `_find_relevant_messages` (the durable store's recent
messages, newest first): head of the list = most recent candidate. -/
structure RelMsg where
  id : Int
  telegram_id : Int
  text : Option String
  user_id : Option Int
  created_at : Int
  is_reply : Bool
  reply_to : Option Int
deriving DecidableEq, Repr

/-- The `'type'` field of a reference decision. -/
inductive RefType where
  | reply
  | forward
  | quote
deriving DecidableEq, Repr

/-- The dictionary returned by `_should_reference_message` when it
decides to reference. -/
structure RefDecision where
  should_reference : Bool
  message : Option RelMsg
  type : RefType
deriving DecidableEq, Repr

/-- `"true" in decision.lower()`. -/
def containsTrueCI (s : String) : Bool :=
  containsSub "true" (strLower s)

/-- `MessageHandler._should_reference_message`: `None` on an empty
candidate list; otherwise ask the generation backend (`Except.error` is a
raised exception, swallowed by the bare `except`), and return the
affirmative decision targeting `relevant_messages[0]` exactly when the
answer contains `"true"` case-insensitively. -/
def should_reference_message (relevant_messages : List RelMsg)
    (gen : Except Unit String) : Option RefDecision :=
  if relevant_messages.isEmpty then none
  else
    match gen with
    | Except.error _ => none
    | Except.ok decision =>
        if containsTrueCI decision then
          some { should_reference := true
                 message := relevant_messages.head?
                 type := RefType.reply }
        else none

/-! ## Basic lemmas -/

theorem pyLastSlice_zero (xs : List α) : pyLastSlice xs 0 = xs := rfl

theorem pyLastSlice_subset (xs : List α) (l : Nat) :
    pyLastSlice xs l ⊆ xs := by
  unfold pyLastSlice
  split
  · exact fun _ h => h
  · exact List.drop_subset _ xs

theorem pyLastSlice_length_le (xs : List α) (l : Nat) (hl : l ≠ 0) :
    (pyLastSlice xs l).length ≤ l := by
  unfold pyLastSlice
  rw [if_neg hl, List.length_drop]
  omega

/-! ## C9: search without a conversation id -/

/-- Claim C9: `search` invoked with `chat_id = None` returns the empty
list, for every query string and every store state, never touching the
index. -/
theorem search_none_chat_empty (backend : Backend)
    (faiss : Nat → List (Int × Int)) (st : VectorStore) (q : String)
    (k : Nat) :
    VectorStore.search backend faiss st q k none = [] := by
  unfold VectorStore.search
  split <;> rfl

/-! ## C10: limit = 0 returns the whole filtered scope -/

/-- Claim C10: `get_user_context` and `get_chat_context` with `limit = 0`
take the Python slice `[-0:]` of the filtered metadata, i.e. the whole
filtered list — every matching record of the scope — not the empty list. -/
theorem context_limit_zero_returns_all (st : VectorStore)
    (user_id chat_id : Int) :
    VectorStore.get_user_context st user_id chat_id 0 =
      st.metadata.filter (fun m =>
        decide (m.user_id = some user_id) && decide (m.chat_id = some chat_id)) ∧
    VectorStore.get_chat_context st chat_id 0 =
      st.metadata.filter (fun m => decide (m.chat_id = some chat_id)) :=
  ⟨rfl, rfl⟩

/-! ## C8: load and the persisted index's dimensionality -/

/-- A sample metadata record for counterexamples. -/
def mmHello : MsgMeta :=
  { chat_id := some 1, user_id := some 2, username := some "u"
    text := some "hello", timestamp := some 0, message_id := some 3 }

/-- Counterexample to claim C8: a persisted index of dimensionality 2
(≠ 1536 fixed at construction) together with one metadata record is
loaded as-is — the store does **not** reset to empty. -/
theorem load_dim_mismatch_not_reset :
    (VectorStore.load VectorStore.initial
        (DiskState.present { d := 2, vecs := [[1, 2]] } [mmHello])).index.d ≠
      VectorStore.initial.dimension ∧
    (VectorStore.load VectorStore.initial
        (DiskState.present { d := 2, vecs := [[1, 2]] } [mmHello])).metadata ≠ [] ∧
    (VectorStore.load VectorStore.initial
        (DiskState.present { d := 2, vecs := [[1, 2]] } [mmHello])).index.vecs ≠ [] := by
  decide

/-- Claim C8 as amended: `load` resets to an empty index (of the
construction dimension) and empty metadata exactly when reading the
persisted files raises; a pair of well-formed persisted artifacts is
loaded as-is, with no dimensionality check — a dimension mismatch is not
detected; missing files leave the state unchanged. -/
theorem load_branches (st : VectorStore) (idx : FIndex)
    (meta : List MsgMeta) :
    (VectorStore.load st DiskState.corrupt).index =
        { d := st.dimension, vecs := [] } ∧
    (VectorStore.load st DiskState.corrupt).metadata = [] ∧
    VectorStore.load st (DiskState.present idx meta) =
        { st with index := idx, metadata := meta } ∧
    VectorStore.load st DiskState.absent = st :=
  ⟨rfl, rfl, rfl, rfl⟩

/-! ## C7: the reference decision -/

/-- Claim C7: `_should_reference_message` yields the affirmative decision
`{should_reference = true, message = head of the newest-first candidate
list, type = reply}` exactly when the candidate list is non-empty and the
generation call succeeded with an answer containing `"true"`
case-insensitively; every other answer, the empty candidate list, and a
raised generation call all yield no reference. -/
theorem reference_decision_iff (relevant_messages : List RelMsg)
    (gen : Except Unit String) (out : RefDecision) :
    should_reference_message relevant_messages gen = some out ↔
      (relevant_messages ≠ [] ∧
        (∃ d, gen = Except.ok d ∧ containsTrueCI d = true) ∧
        out = { should_reference := true
                message := relevant_messages.head?
                type := RefType.reply }) := by
  unfold should_reference_message
  cases relevant_messages with
  | nil => simp
  | cons a as =>
    cases gen with
    | error e => simp
    | ok d =>
      by_cases h : containsTrueCI d = true
      · simp [h]
        exact eq_comm
      · simp [h]

/-! ## C4: the peer-bot throttle -/

/-- Counterexample to claim C4: a peer-bot message in a group chat with no
mention and no reply-to-bot whose increment brings the author's counter to
5 (a multiple of 5) still produces **no** reply — after passing the
throttle the handler falls into the mention/reply/private gate and
returns having only stored the message. -/
theorem bot_throttle_multiple_of_five_no_reply :
    (handle_message (some "gentlebot") true false "group" (some "hello") 4).2 = 5 ∧
    (handle_message (some "gentlebot") true false "group" (some "hello") 4).2 % 5 = 0 ∧
    (handle_message (some "gentlebot") true false "group" (some "hello") 4).1 ≠
      Outcome.replied ∧
    (handle_message (some "gentlebot") true false "group" (some "hello") 4).1 =
      Outcome.storedOnly := by
  decide

/-- Claim C4 as amended: for a bot-authored message with non-empty text
that neither mentions the agent nor replies to it, the author's counter is
always incremented by one, and a reply is produced iff the updated counter
is a multiple of 5 **and** the conversation is a private chat; in group
chats such a message never produces a reply, whatever the counter. -/
theorem bot_throttle_characterisation (bot_username : Option String)
    (chat_type : String) (t : String) (c : Nat) (hne : t ≠ "")
    (hm : is_bot_mentioned bot_username t = false) :
    (handle_message bot_username true false chat_type (some t) c).2 = c + 1 ∧
    ((handle_message bot_username true false chat_type (some t) c).1 =
        Outcome.replied ↔ ((c + 1) % 5 = 0 ∧ chat_type = "private")) := by
  unfold handle_message
  simp only [if_neg hne, hm, Bool.not_false, Bool.and_true, Bool.true_and,
    Bool.and_self, if_true]
  by_cases h5 : (c + 1) % 5 = 0 <;>
    by_cases hp : chat_type = "private" <;>
      simp [should_respond_to_bot, h5, hp]

/-- Witness for `bot_throttle_characterisation`: a peer-bot message in a
private chat whose increment reaches 5 gets a reply. -/
theorem bot_throttle_characterisation_witness :
    ("hi" ≠ "" ∧ is_bot_mentioned (some "gentlebot") "hi" = false) ∧
    ((handle_message (some "gentlebot") true false "private" (some "hi") 4).2 = 4 + 1 ∧
      ((handle_message (some "gentlebot") true false "private" (some "hi") 4).1 =
          Outcome.replied ↔ ((4 + 1) % 5 = 0 ∧ "private" = "private"))) :=
  ⟨⟨by decide, by decide⟩,
    bot_throttle_characterisation (some "gentlebot") "private" "hi" 4
      (by decide) (by decide)⟩

/-! ## The add_messages batch lemma (shared by C2, C5, C6) -/

/-- An always-raising embedding backend, for concrete witnesses. -/
def failingBackend : Backend := fun _ => Except.error ()

theorem goodBackend_failing (d : Nat) : GoodBackend d failingBackend :=
  fun _ _ h => Except.noConfusion h

/-- A store with a cheap dimension for concrete witnesses (the invariants
are proved for every dimension; the deployed store uses 1536). -/
def tinyStore : VectorStore :=
  { dimension := 1, index := { d := 1, vecs := [] }, metadata := [] }

theorem validMsg_textOf {m : MsgMeta} (h : validMsg m = true) :
    strNonWS (textOf m) = true := by
  unfold validMsg at h
  unfold textOf
  cases hm : m.text with
  | none => rw [hm] at h; exact absurd h (by simp)
  | some s => rw [hm] at h; simpa using h

theorem texts_filter_eq (msgs : List MsgMeta) :
    ((msgs.filter validMsg).map textOf).filter strNonWS =
      (msgs.filter validMsg).map textOf := by
  rw [List.filter_eq_self]
  intro a ha
  rw [List.mem_map] at ha
  obtain ⟨m, hm, rfl⟩ := ha
  exact validMsg_textOf (List.of_mem_filter hm)

theorem npSize_of_dims {vs : List Vec} {d : Nat} (h : ∀ v ∈ vs, v.length = d) :
    npSize vs = vs.length * d := by
  induction vs with
  | nil => simp [npSize]
  | cons v rest ih =>
    have hv : v.length = d := h v (List.mem_cons_self v rest)
    have hrest := ih (fun w hw => h w (List.mem_cons_of_mem v hw))
    unfold npSize at *
    simp only [List.map_cons, List.sum_cons, List.length_cons, hv, hrest]
    ring

theorem npSize_replicate (n d : Nat) :
    npSize (List.replicate n (zeroVec d)) = n * d := by
  have : ∀ v ∈ List.replicate n (zeroVec d), v.length = d := by
    intro v hv
    rw [List.eq_of_mem_replicate hv]
    simp [zeroVec]
  rw [npSize_of_dims this, List.length_replicate]

/-- Net effect of one `add_messages` batch under the embedding-backend
interface contract: the metadata list is extended by exactly the entries
with non-empty text, in batch order, and the index receives exactly one
vector per such entry; dimension fields are untouched. -/
theorem add_messages_spec (backend : Backend) (st : VectorStore)
    (msgs : List MsgMeta) (hdim : 0 < st.dimension)
    (hb : GoodBackend st.dimension backend) :
    (VectorStore.add_messages backend st msgs).metadata =
      st.metadata ++ msgs.filter validMsg ∧
    (VectorStore.add_messages backend st msgs).index.vecs.length =
      st.index.vecs.length + (msgs.filter validMsg).length ∧
    (VectorStore.add_messages backend st msgs).index.d = st.index.d ∧
    (VectorStore.add_messages backend st msgs).dimension = st.dimension := by
  unfold VectorStore.add_messages
  by_cases hval : (msgs.filter validMsg).isEmpty = true
  · rw [List.isEmpty_iff] at hval
    simp [hval]
  · have hvne : msgs.filter validMsg ≠ [] := by
      intro hnil; rw [hnil] at hval; exact hval rfl
    have hlen : 0 < (msgs.filter validMsg).length :=
      List.length_pos.mpr hvne
    simp only [hval, if_false, Bool.false_eq_true]
    have henc : npSize (VectorStore.encode st.dimension backend
        ((msgs.filter validMsg).map textOf)) ≠ 0 ∧
        (VectorStore.encode st.dimension backend
          ((msgs.filter validMsg).map textOf)).length =
          (msgs.filter validMsg).length := by
      unfold VectorStore.encode
      rw [texts_filter_eq]
      have hmapne : (msgs.filter validMsg).map textOf ≠ [] := by
        simpa using hvne
      rw [if_neg (by simpa [List.isEmpty_iff] using hmapne)]
      cases hback : backend ((msgs.filter validMsg).map textOf) with
      | ok vs =>
        obtain ⟨hlen2, hdims⟩ := hb _ _ hback
        constructor
        · rw [npSize_of_dims hdims, hlen2, List.length_map]
          positivity
        · rw [hlen2, List.length_map]
      | error e =>
        constructor
        · rw [npSize_replicate, List.length_map]
          positivity
        · rw [List.length_replicate, List.length_map]
    rw [if_neg henc.1]
    refine ⟨rfl, ?_, rfl, rfl⟩
    simp [List.length_append, henc.2]

/-! ## C2: the parallel-array invariant -/

/-- Claim C2: every mutating operation of the vector memory preserves
`ParallelInv` — `add_messages` (under the embedding interface contract),
`clear`, and both branches of `load` (the success branch reading a
consistently persisted pair, the failure branch resetting) — and an
`add_messages` batch appends exactly the entries with non-empty text, in
order, growing index and metadata by that same count. -/
theorem vector_memory_invariants (backend : Backend) (st : VectorStore)
    (msgs : List MsgMeta) (disk : DiskState) (hdim : 0 < st.dimension)
    (hb : GoodBackend st.dimension backend) (hinv : ParallelInv st)
    (hdisk : DiskConsistent disk) :
    ParallelInv (VectorStore.add_messages backend st msgs) ∧
    (VectorStore.add_messages backend st msgs).metadata =
      st.metadata ++ msgs.filter validMsg ∧
    (VectorStore.add_messages backend st msgs).index.vecs.length =
      st.index.vecs.length + (msgs.filter validMsg).length ∧
    ParallelInv (VectorStore.clear st) ∧
    ParallelInv (VectorStore.load st disk) := by
  obtain ⟨hmeta, hvecs, -, -⟩ := add_messages_spec backend st msgs hdim hb
  refine ⟨?_, hmeta, hvecs, rfl, ?_⟩
  · unfold ParallelInv at hinv ⊢
    rw [hmeta, hvecs, List.length_append, hinv]
  · unfold ParallelInv
    cases disk with
    | absent => exact hinv
    | corrupt => rfl
    | present idx meta => exact hdisk

/-- Witness for `vector_memory_invariants` at a concrete store, batch and
disk image. -/
theorem vector_memory_invariants_witness :
    (0 < tinyStore.dimension ∧ GoodBackend tinyStore.dimension failingBackend ∧
      ParallelInv tinyStore ∧
      DiskConsistent (DiskState.present { d := 1, vecs := [[0]] } [mmHello])) ∧
    (ParallelInv (VectorStore.add_messages failingBackend tinyStore [mmHello]) ∧
      (VectorStore.add_messages failingBackend tinyStore [mmHello]).metadata =
        tinyStore.metadata ++ [mmHello].filter validMsg ∧
      (VectorStore.add_messages failingBackend tinyStore [mmHello]).index.vecs.length =
        tinyStore.index.vecs.length + ([mmHello].filter validMsg).length ∧
      ParallelInv (VectorStore.clear tinyStore) ∧
      ParallelInv (VectorStore.load tinyStore
        (DiskState.present { d := 1, vecs := [[0]] } [mmHello]))) :=
  ⟨⟨by decide, goodBackend_failing _, rfl, rfl⟩,
    vector_memory_invariants failingBackend tinyStore [mmHello]
      (DiskState.present { d := 1, vecs := [[0]] } [mmHello])
      (by decide) (goodBackend_failing _) rfl rfl⟩

/-! ## C5: embedding failure degrades to zero vectors -/

/-- Claim C5: when the embedding backend raises for a batch, every entry
with non-empty text is still appended to the metadata, the index grows by
exactly that count, and the appended vectors are precisely zero vectors of
the configured dimension. -/
theorem embed_failure_zero_vectors (backend : Backend) (st : VectorStore)
    (msgs : List MsgMeta) (hdim : 0 < st.dimension)
    (hfail : ∀ ts, backend ts = Except.error ()) :
    (VectorStore.add_messages backend st msgs).metadata =
      st.metadata ++ msgs.filter validMsg ∧
    (VectorStore.add_messages backend st msgs).index.vecs =
      st.index.vecs ++
        List.replicate (msgs.filter validMsg).length (zeroVec st.dimension) ∧
    (VectorStore.add_messages backend st msgs).index.vecs.length =
      st.index.vecs.length + (msgs.filter validMsg).length := by
  unfold VectorStore.add_messages
  by_cases hval : (msgs.filter validMsg).isEmpty = true
  · rw [List.isEmpty_iff] at hval
    simp [hval]
  · have hvne : msgs.filter validMsg ≠ [] := by
      intro hnil; rw [hnil] at hval; exact hval rfl
    have hlen : 0 < (msgs.filter validMsg).length :=
      List.length_pos.mpr hvne
    simp only [hval, if_false, Bool.false_eq_true]
    have henc : VectorStore.encode st.dimension backend
        ((msgs.filter validMsg).map textOf) =
        List.replicate (msgs.filter validMsg).length (zeroVec st.dimension) := by
      unfold VectorStore.encode
      rw [texts_filter_eq]
      have hmapne : (msgs.filter validMsg).map textOf ≠ [] := by
        simpa using hvne
      rw [if_neg (by simpa [List.isEmpty_iff] using hmapne)]
      rw [hfail]
      rw [List.length_map]
    rw [henc, if_neg ?hsz]
    case hsz =>
      rw [npSize_replicate]
      positivity
    refine ⟨rfl, rfl, ?_⟩
    simp [List.length_append]

/-- Witness for `embed_failure_zero_vectors`: a three-message batch whose
embedding call raises is still appended whole, backed by zero vectors. -/
theorem embed_failure_zero_vectors_witness :
    (0 < tinyStore.dimension ∧
      (∀ ts, failingBackend ts = Except.error ())) ∧
    ((VectorStore.add_messages failingBackend tinyStore
        [mmHello, mmHello, mmHello]).metadata =
      tinyStore.metadata ++ [mmHello, mmHello, mmHello].filter validMsg ∧
    (VectorStore.add_messages failingBackend tinyStore
        [mmHello, mmHello, mmHello]).index.vecs =
      tinyStore.index.vecs ++
        List.replicate ([mmHello, mmHello, mmHello].filter validMsg).length
          (zeroVec tinyStore.dimension) ∧
    (VectorStore.add_messages failingBackend tinyStore
        [mmHello, mmHello, mmHello]).index.vecs.length =
      tinyStore.index.vecs.length +
        ([mmHello, mmHello, mmHello].filter validMsg).length) :=
  ⟨⟨by decide, fun _ => rfl⟩,
    embed_failure_zero_vectors failingBackend tinyStore
      [mmHello, mmHello, mmHello] (by decide) (fun _ => rfl)⟩

/-! ## C6: unaddressed group messages are stored but unanswered -/

theorem strNonWS_ne_empty {t : String} (h : strNonWS t = true) : t ≠ "" := by
  intro hrfl
  rw [hrfl] at h
  exact absurd h (by decide)

/-- Counterexample to claim C6: a group-chat message whose text is the
single space `" "` is non-empty, unmentioned and not a reply, so the gate
ends processing without replying — but `add_messages` filters out
whitespace-only texts, so the vector memory does **not** grow by 1: its
metadata is unchanged. -/
theorem whitespace_message_not_recorded :
    (handle_message (some "gentlebot") false false "group" (some " ") 0).1 =
      Outcome.storedOnly ∧
    (store_message_context failingBackend VectorStore.initial " " 1 2 "u" 0 3).metadata.length =
      VectorStore.initial.metadata.length := by
  constructor
  · decide
  · rfl

/-- The six-key record `_store_message_context` builds for one message. -/
def storedRec (t : String) (chatId userId : Int) (un : String)
    (ts msgId : Int) : MsgMeta :=
  { chat_id := some chatId, user_id := some userId, username := some un
    text := some t, timestamp := some ts, message_id := some msgId }

theorem store_message_context_eq (backend : Backend) (st : VectorStore)
    (t : String) (chatId userId : Int) (un : String) (ts msgId : Int) :
    store_message_context backend st t chatId userId un ts msgId =
      VectorStore.add_messages backend st [storedRec t chatId userId un ts msgId] :=
  rfl

/-- Claim C6 as amended: an inbound message whose text contains at least
one non-whitespace character, with no mention, no reply-to-agent and a
non-private chat, produces no reply (outcome `storedOnly`, or `throttled`
for a suppressed peer bot — either way processing ends without a reply)
and is recorded in the vector memory, whose metadata grows by exactly one
entry; for a whitespace-only text, processing likewise ends without a
reply but the vector memory is unchanged. -/
theorem unaddressed_message_stored_no_reply (bot_username : Option String)
    (author_is_bot : Bool) (chat_type : String) (t : String) (c : Nat)
    (backend : Backend) (st : VectorStore) (chatId userId ts msgId : Int)
    (un : String) (hnw : strNonWS t = true)
    (hm : is_bot_mentioned bot_username t = false)
    (hct : (chat_type == "private") = false) (hdim : 0 < st.dimension)
    (hb : GoodBackend st.dimension backend) :
    ((handle_message bot_username author_is_bot false chat_type (some t) c).1 =
        Outcome.storedOnly ∨
      (handle_message bot_username author_is_bot false chat_type (some t) c).1 =
        Outcome.throttled) ∧
    (handle_message bot_username author_is_bot false chat_type (some t) c).1 ≠
      Outcome.replied ∧
    (store_message_context backend st t chatId userId un ts msgId).metadata =
      st.metadata ++ [storedRec t chatId userId un ts msgId] ∧
    (store_message_context backend st t chatId userId un ts msgId).metadata.length =
      st.metadata.length + 1 := by
  have hne : t ≠ "" := strNonWS_ne_empty hnw
  have hrec : validMsg (storedRec t chatId userId un ts msgId) = true := by
    unfold validMsg storedRec
    exact hnw
  have hgate : (handle_message bot_username author_is_bot false chat_type
      (some t) c).1 = Outcome.storedOnly ∨
      (handle_message bot_username author_is_bot false chat_type (some t) c).1 =
        Outcome.throttled := by
    unfold handle_message
    simp only [if_neg hne, hm, Bool.not_false, Bool.and_true]
    cases author_is_bot with
    | false => simp [hct]
    | true =>
      by_cases h5 : should_respond_to_bot (c + 1) = true
      · simp [h5, hct]
      · simp [h5, hct, Bool.not_eq_true _ ▸ h5]
  obtain ⟨hmeta, -, -, -⟩ :=
    add_messages_spec backend st [storedRec t chatId userId un ts msgId] hdim hb
  have hfilter : ([storedRec t chatId userId un ts msgId] :
        List MsgMeta).filter validMsg = [storedRec t chatId userId un ts msgId] := by
    simp [List.filter, hrec]
  refine ⟨hgate, ?_, ?_, ?_⟩
  · rcases hgate with h | h <;> rw [h] <;> decide
  · rw [store_message_context_eq, hmeta, hfilter]
  · rw [store_message_context_eq, hmeta, hfilter]
    simp

/-- Witness for `unaddressed_message_stored_no_reply` at a concrete
group-chat message. -/
theorem unaddressed_message_stored_no_reply_witness :
    (strNonWS "hi" = true ∧
      is_bot_mentioned (some "gentlebot") "hi" = false ∧
      (("group" : String) == "private") = false ∧
      0 < tinyStore.dimension ∧
      GoodBackend tinyStore.dimension failingBackend) ∧
    (((handle_message (some "gentlebot") false false "group" (some "hi") 0).1 =
        Outcome.storedOnly ∨
      (handle_message (some "gentlebot") false false "group" (some "hi") 0).1 =
        Outcome.throttled) ∧
    (handle_message (some "gentlebot") false false "group" (some "hi") 0).1 ≠
      Outcome.replied ∧
    (store_message_context failingBackend tinyStore "hi" 1 2 "u" 0 3).metadata =
      tinyStore.metadata ++ [storedRec "hi" 1 2 "u" 0 3] ∧
    (store_message_context failingBackend tinyStore "hi" 1 2 "u" 0 3).metadata.length =
      tinyStore.metadata.length + 1) :=
  ⟨⟨by decide, by decide, by decide, by decide, goodBackend_failing _⟩,
    unaddressed_message_stored_no_reply (some "gentlebot") false "group" "hi" 0
      failingBackend tinyStore 1 2 0 3 "u" (by decide) (by decide) (by decide)
      (by decide) (goodBackend_failing _)⟩

/-! ## C1: strict conversation isolation -/

theorem search_result_scoped (backend : Backend)
    (faiss : Nat → List (Int × Int)) (st : VectorStore) (q : String)
    (k : Nat) (c : Int) :
    ∀ p ∈ VectorStore.search backend faiss st q k (some c),
      p.1.chat_id = some c := by
  intro p hp
  simp only [VectorStore.search] at hp
  split at hp
  · exact absurd hp (List.not_mem_nil p)
  · split at hp
    · exact absurd hp (List.not_mem_nil p)
    · have hp2 := List.take_subset _ _ hp
      rw [List.mem_filterMap] at hp2
      obtain ⟨pair, hpair, hf⟩ := hp2
      by_cases hrange : 0 ≤ pair.1 ∧ pair.1.toNat < st.metadata.length
      · rw [if_pos hrange] at hf
        by_cases hchat :
            (st.metadata.getD pair.1.toNat defaultMeta).chat_id = some c
        · rw [if_pos hchat] at hf
          rw [Option.some.injEq] at hf
          rw [← hf]
          exact hchat
        · rw [if_neg hchat] at hf
          exact absurd hf (by simp)
      · rw [if_neg hrange] at hf
        exact absurd hf (by simp)

theorem user_context_scoped (st : VectorStore) (uid c : Int) (l : Nat) :
    ∀ m ∈ VectorStore.get_user_context st uid c l, m.chat_id = some c := by
  intro m hm
  unfold VectorStore.get_user_context at hm
  have h1 := pyLastSlice_subset _ _ hm
  rw [List.mem_filter] at h1
  have h2 := h1.2
  simp only [Bool.and_eq_true, decide_eq_true_eq] at h2
  exact h2.2

theorem chat_context_scoped (st : VectorStore) (c : Int) (l : Nat) :
    ∀ m ∈ VectorStore.get_chat_context st c l, m.chat_id = some c := by
  intro m hm
  unfold VectorStore.get_chat_context at hm
  have h1 := pyLastSlice_subset _ _ hm
  rw [List.mem_filter] at h1
  have h2 := h1.2
  simp only [decide_eq_true_eq] at h2
  exact h2

/-- Claim C1: after any sequence of `add_messages` batches, a record
stored with conversation id `c1` is never contained in the result of
`search`, `get_user_context` or `get_chat_context` scoped to a different
conversation id `c2`, whatever query, `k`, user, limits, and FAISS
neighbour answer are involved. -/
theorem conversation_isolation (backend : Backend)
    (batches : List (List MsgMeta)) (c1 c2 : Int) (hne : c1 ≠ c2)
    (r : MsgMeta) (hr : r.chat_id = some c1)
    (_hmem : r ∈ (batches.foldl (VectorStore.add_messages backend)
      VectorStore.initial).metadata)
    (q : String) (k : Nat) (faiss : Nat → List (Int × Int)) (uid : Int)
    (l1 l2 : Nat) :
    (∀ dist, (r, dist) ∉ VectorStore.search backend faiss
        (batches.foldl (VectorStore.add_messages backend) VectorStore.initial)
        q k (some c2)) ∧
    r ∉ VectorStore.get_user_context
        (batches.foldl (VectorStore.add_messages backend) VectorStore.initial)
        uid c2 l1 ∧
    r ∉ VectorStore.get_chat_context
        (batches.foldl (VectorStore.add_messages backend) VectorStore.initial)
        c2 l2 := by
  have hcc : some c1 ≠ some c2 := by
    intro h
    exact hne (Option.some.injEq c1 c2 ▸ h)
  refine ⟨?_, ?_, ?_⟩
  · intro dist hmem2
    have := search_result_scoped backend faiss _ q k c2 (r, dist) hmem2
    exact hcc (hr ▸ this)
  · intro hmem2
    have := user_context_scoped _ uid c2 l1 r hmem2
    exact hcc (hr ▸ this)
  · intro hmem2
    have := chat_context_scoped _ c2 l2 r hmem2
    exact hcc (hr ▸ this)

/-- A backend that always answers with one stub vector, for witnesses. -/
def stubBackend : Backend := fun _ => Except.ok [[0]]

/-- Witness for `conversation_isolation`: one inserted record in chat 1 is
invisible to all three retrieval operations scoped to chat 2. -/
theorem conversation_isolation_witness :
    (((1 : Int) ≠ 2) ∧ mmHello.chat_id = some 1 ∧
      mmHello ∈ ([[mmHello]].foldl (VectorStore.add_messages stubBackend)
        VectorStore.initial).metadata) ∧
    ((∀ dist, (mmHello, dist) ∉ VectorStore.search stubBackend
        (fun _ => [(0, 0)])
        ([[mmHello]].foldl (VectorStore.add_messages stubBackend)
          VectorStore.initial) "x" 5 (some 2)) ∧
    mmHello ∉ VectorStore.get_user_context
        ([[mmHello]].foldl (VectorStore.add_messages stubBackend)
          VectorStore.initial) 2 2 10 ∧
    mmHello ∉ VectorStore.get_chat_context
        ([[mmHello]].foldl (VectorStore.add_messages stubBackend)
          VectorStore.initial) 2 20) :=
  ⟨⟨by decide, by decide, by decide⟩,
    conversation_isolation stubBackend [[mmHello]] 1 2 (by decide) mmHello
      (by decide) (by decide) "x" 5 (fun _ => [(0, 0)]) 2 10 20⟩

/-! ## C3: the merged context window -/

theorem dedupAppend_eq (xs : List MsgMeta) : ∀ acc, xs.Nodup →
    (∀ x ∈ xs, x ∉ acc) → dedupAppend acc xs = acc ++ xs := by
  induction xs with
  | nil =>
    intro acc _ _
    simp [dedupAppend]
  | cons m rest ih =>
    intro acc hnd hdisj
    unfold dedupAppend
    rw [if_neg (hdisj m (List.mem_cons_self m rest))]
    rw [ih (acc ++ [m]) (List.Nodup.of_cons hnd) ?_]
    · simp
    · intro x hx hmem
      rcases List.mem_append.mp hmem with hcase | hcase
      · exact hdisj x (List.mem_cons_of_mem m hx) hcase
      · rw [List.mem_singleton] at hcase
        subst hcase
        exact (List.nodup_cons.mp hnd).1 hx

theorem addSimilar_spec (sims : List (MsgMeta × Int)) :
    ∀ acc added, added ≤ 6 →
      ∃ t, addSimilar acc added sims = acc ++ t ∧ t.length + added ≤ 6 ∧
        (∀ x ∈ t, (∃ d, (x, d) ∈ sims) ∧ x ∉ acc) ∧
        (acc.Nodup → (acc ++ t).Nodup) := by
  induction sims with
  | nil =>
    intro acc added hle
    exact ⟨[], by simp [addSimilar], by simp; omega, by simp,
      fun hnd => by simpa⟩
  | cons p rest ih =>
    obtain ⟨m, d⟩ := p
    intro acc added hle
    unfold addSimilar
    by_cases h6 : 6 ≤ added
    · exact ⟨[], by rw [if_pos h6]; simp, by simp; omega, by simp,
        fun hnd => by simpa⟩
    · rw [if_neg h6]
      by_cases hmem : m ∈ acc
      · rw [if_pos hmem]
        obtain ⟨t, ht1, ht2, ht3, ht4⟩ := ih acc added hle
        refine ⟨t, ht1, ht2, ?_, ht4⟩
        intro x hx
        obtain ⟨⟨d', hd'⟩, hna⟩ := ht3 x hx
        exact ⟨⟨d', List.mem_cons_of_mem _ hd'⟩, hna⟩
      · rw [if_neg hmem]
        obtain ⟨t, ht1, ht2, ht3, ht4⟩ := ih (acc ++ [m]) (added + 1) (by omega)
        refine ⟨m :: t, ?_, by simp only [List.length_cons]; omega, ?_, ?_⟩
        · rw [ht1]
          simp
        · intro x hx
          rcases List.mem_cons.mp hx with hcase | hcase
          · subst hcase
            exact ⟨⟨d, List.mem_cons_self _ _⟩, hmem⟩
          · obtain ⟨⟨d', hd'⟩, hna⟩ := ht3 x hcase
            refine ⟨⟨d', List.mem_cons_of_mem _ hd'⟩, ?_⟩
            intro hxacc
            exact hna (List.mem_append_left _ hxacc)
        · intro hnd
          have hnd2 : (acc ++ [m]).Nodup := by
            rw [List.nodup_append]
            refine ⟨hnd, List.nodup_singleton m, ?_⟩
            intro x hx hx2
            rw [List.mem_singleton] at hx2
            subst hx2
            exact hmem hx
          have hres := ht4 hnd2
          rwa [List.append_assoc, List.singleton_append] at hres

/-- Claim C3: provided the 6 most-recent chat-context records are pairwise
distinct, the merged window handed to the generation call is exactly those
records followed by at most 6 similarity results not already present
(membership by value equality), it never exceeds 12 entries, and it
contains no duplicates by value. -/
theorem context_merge_bounded (chat_context : List MsgMeta)
    (similar : List (MsgMeta × Int))
    (h : (pyLastSlice chat_context 6).Nodup) :
    (contextMessages chat_context similar).length ≤ 12 ∧
    (contextMessages chat_context similar).Nodup ∧
    ∃ simPart, contextMessages chat_context similar =
        pyLastSlice chat_context 6 ++ simPart ∧
      simPart.length ≤ 6 ∧
      ∀ x ∈ simPart, (∃ d, (x, d) ∈ similar) ∧
        x ∉ pyLastSlice chat_context 6 := by
  have hd : dedupAppend [] (pyLastSlice chat_context 6) =
      pyLastSlice chat_context 6 := by
    have hq := dedupAppend_eq (pyLastSlice chat_context 6) [] h
      (fun x _ hx => List.not_mem_nil x hx)
    simpa using hq
  obtain ⟨t, ht1, ht2, ht3, ht4⟩ :=
    addSimilar_spec similar (pyLastSlice chat_context 6) 0 (by omega)
  have henh : enhancedContext chat_context similar =
      pyLastSlice chat_context 6 ++ t := by
    unfold enhancedContext
    rw [hd, ht1]
  have hlen6 : (pyLastSlice chat_context 6).length ≤ 6 :=
    pyLastSlice_length_le _ 6 (by omega)
  have hlen : (enhancedContext chat_context similar).length ≤ 12 := by
    rw [henh, List.length_append]
    omega
  have htake : contextMessages chat_context similar =
      enhancedContext chat_context similar := by
    unfold contextMessages
    exact List.take_of_length_le (by omega)
  refine ⟨by rw [htake]; omega, ?_, t, ?_, by omega, ?_⟩
  · rw [htake, henh]
    exact ht4 h
  · rw [htake, henh]
  · intro x hx
    exact ht3 x hx

/-- A second sample record (distinct by value from `mmHello`). -/
def mmWorld : MsgMeta :=
  { chat_id := some 1, user_id := some 2, username := some "u"
    text := some "world", timestamp := some 1, message_id := some 4 }

/-- A sample similarity hit. -/
def mmSim : MsgMeta :=
  { chat_id := some 1, user_id := some 3, username := some "v"
    text := some "sim", timestamp := some 2, message_id := some 5 }

/-- Witness for `context_merge_bounded` at a concrete chat context and
similarity result list. -/
theorem context_merge_bounded_witness :
    (pyLastSlice [mmHello, mmWorld] 6).Nodup ∧
    ((contextMessages [mmHello, mmWorld] [(mmSim, (0 : Int))]).length ≤ 12 ∧
      (contextMessages [mmHello, mmWorld] [(mmSim, (0 : Int))]).Nodup ∧
      ∃ simPart, contextMessages [mmHello, mmWorld] [(mmSim, (0 : Int))] =
          pyLastSlice [mmHello, mmWorld] 6 ++ simPart ∧
        simPart.length ≤ 6 ∧
        ∀ x ∈ simPart, (∃ d, (x, d) ∈ [(mmSim, (0 : Int))]) ∧
          x ∉ pyLastSlice [mmHello, mmWorld] 6) :=
  ⟨by decide,
    context_merge_bounded [mmHello, mmWorld] [(mmSim, (0 : Int))] (by decide)⟩
